import Mathlib

/-!
# Verification of the assessment-platform randomization and proctoring logic

Shallow embedding of the LTIMindtree assessment platform backend
(`server.js` and the proctoring module).  JavaScript arrays become
`List`, JS objects become structures, MySQL tables become lists of row
structures, and nondeterminism from `Math.random()` is abstracted into an
explicit stream of choices (`Nat → Nat`): every theorem quantifies over
all such streams, so every realizable run of the program is covered.
Timestamps (`CURRENT_TIMESTAMP`, `new Date()`) are modelled as `Nat`
ticks supplied at each call.  `JSON.parse` / `JSON.stringify` are
modelled as explicit function parameters (`Option`-valued for `parse`,
whose `none` models a thrown exception).
-/

namespace AssessEvent

/-! ## Generic list machinery for the Fisher-Yates shuffle (`shuffleArray`) -/

/-- The JS destructuring swap `[a[i], a[j]] = [a[j], a[i]]` on a list.
If either index is out of range the list is returned unchanged (in
`shuffleArray` both indices are always in range). -/
def swapL {α : Type} (l : List α) (i j : Nat) : List α :=
  match l[i]?, l[j]? with
  | some a, some b => (l.set i b).set j a
  | _, _ => l

/-- Model of `shuffleArray` from server.js lines 154-162:
`for (let i = length-1; i > 0; i--) { j = floor(random()*(i+1)); swap i j }`.
The random draws are abstracted by the choice stream `c`; the draw used at
step `i` is `c i % (i+1)`, which ranges over exactly the values
`Math.floor(Math.random() * (i + 1))` can take (`0 .. i`). -/
def fyAux {α : Type} (c : Nat → Nat) : Nat → List α → List α
  | 0, l => l
  | i+1, l => fyAux c i (swapL l (i+1) (c (i+1) % (i+2)))

/-- Function `shuffleArray(array)`: copy the array, then run the Fisher-Yates loop
from index `length - 1` down to `1`. -/
def shuffleArray {α : Type} (c : Nat → Nat) (l : List α) : List α :=
  fyAux c (l.length - 1) l

theorem cons_set_perm {α : Type} :
    ∀ (t : List α) (k : Nat) (x b : α), t[k]? = some b →
      (b :: t.set k x).Perm (x :: t) := by
  intro t
  induction t with
  | nil => intro k x b h; simp at h
  | cons c t ih =>
    intro k x b h
    cases k with
    | zero =>
      simp at h
      subst h
      exact (List.Perm.swap c x t).symm
    | succ k =>
      simp at h
      have step1 : (b :: c :: t.set k x).Perm (c :: b :: t.set k x) :=
        List.Perm.swap c b (t.set k x)
      have step2 : (c :: b :: t.set k x).Perm (c :: x :: t) :=
        List.Perm.cons c (ih k x b h)
      have step3 : (c :: x :: t).Perm (x :: c :: t) := List.Perm.swap x c t
      exact (step1.trans step2).trans step3

theorem set_set_perm {α : Type} :
    ∀ (l : List α) (i j : Nat) (a b : α), l[i]? = some a → l[j]? = some b →
      ((l.set i b).set j a).Perm l := by
  intro l
  induction l with
  | nil => intro i j a b h₁ h₂; simp at h₁
  | cons x t ih =>
    intro i j a b h₁ h₂
    cases i with
    | zero =>
      simp at h₁
      subst h₁
      cases j with
      | zero =>
        simp at h₂
        subst h₂
        simp
      | succ j =>
        simp at h₂
        simpa using cons_set_perm t j x b h₂
    | succ i =>
      simp at h₁
      cases j with
      | zero =>
        simp at h₂
        subst h₂
        simpa using cons_set_perm t i x a h₁
      | succ j =>
        simp at h₂
        simpa using List.Perm.cons x (ih i j a b h₁ h₂)

theorem swapL_perm {α : Type} (l : List α) (i j : Nat) : (swapL l i j).Perm l := by
  unfold swapL
  cases h₁ : l[i]? with
  | none => exact List.Perm.refl l
  | some a =>
    cases h₂ : l[j]? with
    | none => exact List.Perm.refl l
    | some b => exact set_set_perm l i j a b h₁ h₂

theorem fyAux_perm {α : Type} (c : Nat → Nat) :
    ∀ (i : Nat) (l : List α), (fyAux c i l).Perm l := by
  intro i
  induction i with
  | zero => intro l; exact List.Perm.refl l
  | succ i ih =>
    intro l
    exact (ih (swapL l (i+1) (c (i+1) % (i+2)))).trans
      (swapL_perm l (i+1) (c (i+1) % (i+2)))

theorem shuffleArray_perm {α : Type} (c : Nat → Nat) (l : List α) :
    (shuffleArray c l).Perm l :=
  fyAux_perm c (l.length - 1) l

theorem shuffleArray_length {α : Type} (c : Nat → Nat) (l : List α) :
    (shuffleArray c l).length = l.length :=
  (shuffleArray_perm c l).length_eq

/-! ## Question model and option randomization (server.js lines 164-202) -/

/-- A quiz question as delivered by server.js.  `options = none` models a
question whose `options` field is absent or not an array (the JS guard
`!question.options || !Array.isArray(question.options)`); option values
are modelled as strings.  `correct` is an `Int` because the JS code can
store `-1` (result of `indexOf` on a miss).  `originalOrder` is the field
added by `randomizeQuestionOptions`; `text` and `points` stand for the
remaining payload carried along by the `{...question}` spread. -/
structure Question where
  text : String
  options : Option (List String)
  correct : Int
  originalOrder : Option (List String) := none
  points : Int := 1
deriving DecidableEq, Repr

/-- JS array read `l[i]` with a possibly negative index: out-of-range
reads give `undefined`, modelled as `none`. -/
def jsGet (l : List String) (i : Int) : Option String :=
  if 0 ≤ i then l[i.toNat]? else none

/-- JS `Array.prototype.indexOf`: first index of the value, `-1` when the
value is absent.  `indexOf(undefined)` on an array of strings is `-1`,
hence the `none ↦ -1` clause. -/
def jsIndexOf (l : List String) (a : Option String) : Int :=
  match a with
  | none => -1
  | some v =>
    match l.findIdx? (fun x => x == v) with
    | some n => (n : Int)
    | none => -1

/-- Model of `randomizeQuestionOptions(question)` from server.js lines 164-180. -/
def randomizeQuestionOptions (c : Nat → Nat) (q : Question) : Question :=
  match q.options with
  | none => q
  | some opts =>
    let correctAnswer := jsGet opts q.correct
    let shuffledOptions := shuffleArray c opts
    let newCorrectIndex := jsIndexOf shuffledOptions correctAnswer
    { q with
      options := some shuffledOptions
      correct := newCorrectIndex
      originalOrder := some opts }

/-- Indexed map: `mapWithIndex f i [a, b, ...] = [f i a, f (i+1) b, ...]`.
Used to give each question of a quiz its own slice of the abstract
randomness (each JS `shuffleArray` call draws fresh `Math.random()`
values). -/
def mapWithIndex {α β : Type} (f : Nat → α → β) : Nat → List α → List β
  | _, [] => []
  | i, a :: l => f i a :: mapWithIndex f (i+1) l

/-- Model of `randomizeQuiz(questions, randomizeQuestions, randomizeOptions,
questionLimit)` from server.js lines 182-202.  `cs i` is the randomness
consumed by the option shuffle of the `i`-th question, `cq` the
randomness consumed by the question-order shuffle.  `questionLimit =
none` models an absent/`null`/`NaN` limit (falsy in
`questionLimit && questionLimit > 0 && ...`); `some 0` is likewise falsy,
which the guard `0 < n` absorbs. -/
def randomizeQuiz (cs : Nat → Nat → Nat) (cq : Nat → Nat) (questions : List Question)
    (randomizeQuestions randomizeOptions : Bool) (questionLimit : Option Int) :
    List Question :=
  let p1 := if randomizeOptions then
      mapWithIndex (fun i q => randomizeQuestionOptions (cs i) q) 0 questions
    else questions
  let p2 := if randomizeQuestions then shuffleArray cq p1 else p1
  match questionLimit with
  | some n => if 0 < n ∧ n < (p2.length : Int) then p2.take n.toNat else p2
  | none => p2

theorem findIdx_self_spec :
    ∀ (l : List String) (v : String), v ∈ l →
      ∃ n, l.findIdx? (fun x => x == v) = some n ∧ l[n]? = some v := by
  intro l
  induction l with
  | nil => intro v h; simp at h
  | cons h t ih =>
    intro v hv
    by_cases he : h = v
    · refine ⟨0, ?_, ?_⟩
      · simp [List.findIdx?_cons, he]
      · simp [he]
    · have hvt : v ∈ t := by
        rcases List.mem_cons.mp hv with h1 | h1
        · exact absurd h1.symm he
        · exact h1
      obtain ⟨n, hn, hg⟩ := ih v hvt
      refine ⟨n + 1, ?_, ?_⟩
      · have hb : (h == v) = false := by
          simp [he]
        simp [List.findIdx?_cons, hb, hn]
      · simpa using hg

theorem jsGet_mem {l : List String} {i : Int} {v : String}
    (h : jsGet l i = some v) : v ∈ l := by
  unfold jsGet at h
  split at h
  · exact List.mem_iff_getElem?.mpr ⟨i.toNat, h⟩
  · exact absurd h (by simp)

theorem jsIndexOf_jsGet {l : List String} {v : String} (h : v ∈ l) :
    jsGet l (jsIndexOf l (some v)) = some v := by
  obtain ⟨n, hn, hg⟩ := findIdx_self_spec l v h
  simp only [jsIndexOf, hn]
  unfold jsGet
  simpa using hg

theorem mapWithIndex_length {α β : Type} (f : Nat → α → β) :
    ∀ (i : Nat) (l : List α), (mapWithIndex f i l).length = l.length := by
  intro i l
  induction l generalizing i with
  | nil => rfl
  | cons a l ih => simp [mapWithIndex, ih]

theorem mapWithIndex_take {α β : Type} (f : Nat → α → β) :
    ∀ (k i : Nat) (l : List α),
      (mapWithIndex f i l).take k = mapWithIndex f i (l.take k) := by
  intro k
  induction k with
  | zero => intro i l; rfl
  | succ k ih =>
    intro i l
    cases l with
    | nil => rfl
    | cons a l => simp [mapWithIndex, ih]

/-- Claim C2. For every question whose `options` field is a well-formed
array, `randomizeQuestionOptions` returns an options sequence that is a
permutation (same multiset) of the input options, the value at the new
correct index equals the value previously at the old correct index, and
the pre-shuffle option order is recorded in `originalOrder`; a question
with an absent or non-array `options` field passes through unmodified.
Quantified over every choice stream `c`, i.e. over every possible
realization of `Math.random()`. -/
theorem randomizeQuestionOptions_spec (c : Nat → Nat) (q : Question) :
    (∀ opts, q.options = some opts →
      (randomizeQuestionOptions c q).options = some (shuffleArray c opts) ∧
      (shuffleArray c opts).Perm opts ∧
      jsGet (shuffleArray c opts) (randomizeQuestionOptions c q).correct
        = jsGet opts q.correct ∧
      (randomizeQuestionOptions c q).originalOrder = some opts) ∧
    (q.options = none → randomizeQuestionOptions c q = q) := by
  constructor
  · intro opts hopts
    have hq : randomizeQuestionOptions c q =
        { q with
          options := some (shuffleArray c opts)
          correct := jsIndexOf (shuffleArray c opts) (jsGet opts q.correct)
          originalOrder := some opts } := by
      unfold randomizeQuestionOptions
      rw [hopts]
    refine ⟨by rw [hq], shuffleArray_perm c opts, ?_, by rw [hq]⟩
    rw [hq]
    cases hget : jsGet opts q.correct with
    | none =>
      simp [jsIndexOf, jsGet]
    | some v =>
      have hv : v ∈ opts := jsGet_mem hget
      have hv2 : v ∈ shuffleArray c opts := ((shuffleArray_perm c opts).mem_iff).mpr hv
      exact jsIndexOf_jsGet hv2
  · intro hopts
    unfold randomizeQuestionOptions
    rw [hopts]

/-- Witness for C2 at a concrete question (`options = ["a","b","c"]`,
`correct = 1`) and at a concrete optionless question, with a concrete
choice stream. -/
theorem randomizeQuestionOptions_spec_witness :
    ((randomizeQuestionOptions (fun _ => 0)
        { text := "q", options := some ["a", "b", "c"], correct := 1 }).originalOrder
      = some ["a", "b", "c"]) ∧
    (randomizeQuestionOptions (fun _ => 0)
        { text := "q2", options := none, correct := 0 }
      = { text := "q2", options := none, correct := 0 }) :=
  ⟨((randomizeQuestionOptions_spec (fun _ => 0)
      { text := "q", options := some ["a", "b", "c"], correct := 1 }).1
      ["a", "b", "c"] rfl).2.2.2,
   (randomizeQuestionOptions_spec (fun _ => 0)
      { text := "q2", options := none, correct := 0 }).2 rfl⟩

/-- Claim C3. `randomizeQuiz` truncates only when `questionLimit` is a
positive integer strictly less than the list length (first conjunct:
the result length as a function of the limit — `questionLimit ≤ 0`,
absent, or `≥ length` leaves the count unchanged, and an empty list
yields an empty result); and with `randomizeQuestions = false`,
`randomizeOptions = true`, `questionLimit = 3` on a 5-question list the
result is exactly the first 3 questions in their original relative
order, each passed through `randomizeQuestionOptions` (second
conjunct).  The embedding is pure, mirroring that the JS code copies
(`[...questions]`, `map`, `slice`) and never mutates its input. -/
theorem randomizeQuiz_spec (cs : Nat → Nat → Nat) (cq : Nat → Nat) :
    (∀ (qs : List Question) (rq ro : Bool) (lim : Option Int),
      (randomizeQuiz cs cq qs rq ro lim).length =
        match lim with
        | some n => if 0 < n ∧ n < (qs.length : Int) then n.toNat else qs.length
        | none => qs.length) ∧
    (∀ qs : List Question, qs.length = 5 →
      randomizeQuiz cs cq qs false true (some 3) =
        mapWithIndex (fun i q => randomizeQuestionOptions (cs i) q) 0 (qs.take 3)) := by
  have hlen : ∀ (qs : List Question) (rq ro : Bool),
      (if rq then
          shuffleArray cq (if ro then
            mapWithIndex (fun i q => randomizeQuestionOptions (cs i) q) 0 qs
          else qs)
        else (if ro then
            mapWithIndex (fun i q => randomizeQuestionOptions (cs i) q) 0 qs
          else qs)).length = qs.length := by
    intro qs rq ro
    cases rq <;> cases ro <;>
      simp [shuffleArray_length, mapWithIndex_length]
  constructor
  · intro qs rq ro lim
    cases lim with
    | none => simpa [randomizeQuiz] using hlen qs rq ro
    | some n =>
      by_cases hcond : 0 < n ∧ n < (qs.length : Int)
      · have hlen2 := hlen qs rq ro
        have hcond2 : 0 < n ∧ n < (((if rq then
            shuffleArray cq (if ro then
              mapWithIndex (fun i q => randomizeQuestionOptions (cs i) q) 0 qs
            else qs)
          else (if ro then
              mapWithIndex (fun i q => randomizeQuestionOptions (cs i) q) 0 qs
            else qs)).length : Nat) : Int) := by
          rw [hlen2]; exact hcond
        simp only [randomizeQuiz]
        rw [if_pos hcond2, List.length_take, hlen2]
        have h1 : n.toNat ≤ qs.length := by omega
        simp [hcond, Nat.min_eq_left h1]
      · have hlen2 := hlen qs rq ro
        have hcond2 : ¬(0 < n ∧ n < (((if rq then
            shuffleArray cq (if ro then
              mapWithIndex (fun i q => randomizeQuestionOptions (cs i) q) 0 qs
            else qs)
          else (if ro then
              mapWithIndex (fun i q => randomizeQuestionOptions (cs i) q) 0 qs
            else qs)).length : Nat) : Int)) := by
          rw [hlen2]; exact hcond
        simp only [randomizeQuiz]
        rw [if_neg hcond2, hlen2]
        simp [hcond]
  · intro qs hqs
    have hmaplen : (mapWithIndex (fun i q => randomizeQuestionOptions (cs i) q) 0 qs).length = 5 := by
      rw [mapWithIndex_length]; exact hqs
    have hcond : (0 : Int) < 3 ∧ (3 : Int) <
        ((mapWithIndex (fun i q => randomizeQuestionOptions (cs i) q) 0 qs).length : Nat) := by
      rw [hmaplen]; constructor <;> norm_num
    simp only [randomizeQuiz, Bool.false_eq_true, if_false, if_true, hcond, if_pos]
    have h3 : ((3 : Int)).toNat = 3 := rfl
    rw [h3, mapWithIndex_take]
    simp

/-- Witness for C3 at a concrete 5-question list and concrete streams:
the limited, option-randomized result is the indexed option
randomization of the first three questions. -/
theorem randomizeQuiz_spec_witness :
    randomizeQuiz (fun _ _ => 0) (fun _ => 0)
        [{ text := "a", options := none, correct := 0 },
         { text := "b", options := none, correct := 0 },
         { text := "c", options := none, correct := 0 },
         { text := "d", options := none, correct := 0 },
         { text := "e", options := none, correct := 0 }] false true (some 3) =
      mapWithIndex (fun i q => randomizeQuestionOptions ((fun _ _ => (0 : Nat)) i) q) 0
        ([{ text := "a", options := none, correct := 0 },
          { text := "b", options := none, correct := 0 },
          { text := "c", options := none, correct := 0 },
          { text := "d", options := none, correct := 0 },
          { text := "e", options := none, correct := 0 }].take 3) :=
  (randomizeQuiz_spec (fun _ _ => 0) (fun _ => 0)).2
    [{ text := "a", options := none, correct := 0 },
     { text := "b", options := none, correct := 0 },
     { text := "c", options := none, correct := 0 },
     { text := "d", options := none, correct := 0 },
     { text := "e", options := none, correct := 0 }] rfl

/-! ## Proctoring module (src/unnamed/part_004)

The MySQL tables `proctoring_sessions` and `proctoring_violations`
become lists of row structures; the in-memory `activeSessions` `Map`
becomes an association list.  The declared schema constraints the
claims depend on are modelled explicitly: the `UNIQUE` key on
`session_id` (a duplicate `INSERT` throws) and the `FOREIGN KEY` from
`proctoring_violations.session_id` to `proctoring_sessions.session_id`
(an `INSERT` for an unknown session throws).  JSON columns
(`settings`, `metadata`, `evidence`) are carried as strings. -/

/-- A row of `proctoring_sessions`.  `status` ranges over the strings the
code writes: `"active"`, `"completed"`, `"terminated"`. -/
structure SessionRow where
  session_id : String
  user_email : String
  user_name : String
  assessment_id : String
  proctoring_level : String := "basic"
  status : String
  start_time : Nat
  end_time : Option Nat := none
  violation_count : Nat := 0
  strict_mode : Bool := false
deriving DecidableEq, Repr

/-- A row of `proctoring_violations`. -/
structure ViolationRow where
  session_id : String
  violation_type : String
  severity : String := "medium"
  description : String := ""
  evidence : String := "{}"
  auto_flagged : Bool := true
  timestamp : Nat
deriving DecidableEq, Repr

/-- An entry of the in-memory `session.violations` array. -/
structure MemViolation where
  type : String
  severity : String
  timestamp : Nat
  description : String
  evidence : String
deriving DecidableEq, Repr

/-- An entry of the in-memory `activeSessions` map. -/
structure MemSession where
  strictMode : Bool
  violations : List MemViolation
  startTime : Nat
  lastActivity : Nat
deriving DecidableEq, Repr

/-- Combined persistent (database) and volatile (in-process) state of the
`ProctoringManager`. -/
structure ProctorState where
  sessions : List SessionRow
  violations : List ViolationRow
  mem : List (String × MemSession)
deriving DecidableEq, Repr

def ProctorState.init : ProctorState := ⟨[], [], []⟩

/-- First row with the given `session_id` (row lookup of
`SELECT ... WHERE session_id = ?`). -/
def findRowBy : List SessionRow → String → Option SessionRow
  | [], _ => none
  | r :: t, sid => if r.session_id == sid then some r else findRowBy t sid

/-- Query `SELECT ... WHERE session_id = ?` on `proctoring_sessions`. -/
def findSession (s : ProctorState) (sid : String) : Option SessionRow :=
  findRowBy s.sessions sid

/-- Lookup in the association list modelling the `activeSessions` map. -/
def memLookup : List (String × MemSession) → String → Option MemSession
  | [], _ => none
  | p :: t, sid => if p.1 == sid then some p.2 else memLookup t sid

/-- Lookup `this.activeSessions.get(sessionId)`. -/
def memGet (s : ProctorState) (sid : String) : Option MemSession :=
  memLookup s.mem sid

/-- Argument object of `startSession` (`sessionData`), with the JS
default values of the destructuring. -/
structure SessionData where
  sessionId : String
  userEmail : String
  userName : String
  assessmentId : String
  proctoringLevel : String := "basic"
  strictMode : Bool := false
deriving DecidableEq, Repr

/-- Argument object of `logViolation` (`violationData`), with the JS
default values of the destructuring. -/
structure ViolationData where
  violationType : String
  severity : String := "medium"
  description : String := ""
  evidence : String := "{}"
  autoFlagged : Bool := true
deriving DecidableEq, Repr

inductive StartResult where
  | ok (sessionId : String)
  | error
deriving DecidableEq, Repr

/-- Result `{ success: true, violationCount }` on success; `error` models the
rethrown database exception (surfaced by the route as a 500). -/
inductive LogResult where
  | ok (violationCount : Nat)
  | error
deriving DecidableEq, Repr

/-- Result `{ success: true, reason }`. -/
inductive EndResult where
  | ok (reason : String)
deriving DecidableEq, Repr

/-- Model of `startSession(sessionData)` (part_004 lines 68-102): `INSERT` the row
with status `'active'` (the `UNIQUE KEY` on `session_id` makes a
duplicate insert throw, leaving the state unchanged), then cache the
session in `activeSessions`. -/
def startSession (now : Nat) (s : ProctorState) (d : SessionData) :
    ProctorState × StartResult :=
  match findSession s d.sessionId with
  | some _ => (s, .error)
  | none =>
    let row : SessionRow :=
      { session_id := d.sessionId
        user_email := d.userEmail
        user_name := d.userName
        assessment_id := d.assessmentId
        proctoring_level := d.proctoringLevel
        status := "active"
        start_time := now
        strict_mode := d.strictMode }
    let m : MemSession :=
      { strictMode := d.strictMode
        violations := []
        startTime := now
        lastActivity := now }
    ({ s with
        sessions := s.sessions ++ [row]
        mem := s.mem ++ [(d.sessionId, m)] },
     .ok d.sessionId)

/-- Model of `endSession(sessionId, reason)` (part_004 lines 154-172): set
`status` to `'completed'` when `reason === 'completed'` and to
`'terminated'` otherwise, stamp `end_time`, delete the in-memory entry,
and report success — with no check that the session exists or that it is
not already terminal. -/
def endSession (now : Nat) (s : ProctorState) (sid : String) (reason : String) :
    ProctorState × EndResult :=
  let status := if reason == "completed" then "completed" else "terminated"
  ({ s with
      sessions := s.sessions.map (fun r =>
        if r.session_id == sid then { r with status := status, end_time := some now }
        else r)
      mem := s.mem.filter (fun p => !(p.1 == sid)) },
   .ok reason)

/-- Model of `terminateSession(sessionId, reason)` (part_004 lines 174-176). -/
def terminateSession (now : Nat) (s : ProctorState) (sid : String) (reason : String) :
    ProctorState × EndResult :=
  endSession now s sid ("terminated_" ++ reason)

/-- Model of `logViolation(sessionId, violationData)` (part_004 lines 104-152):
`INSERT` the violation (the foreign key makes this throw when the
session row does not exist), increment `violation_count` on the session
row, then update the in-memory entry when present — appending the
violation, and, when `strictMode` is set and the in-memory list has
reached 3 entries, terminating the session with reason
`violation_threshold_exceeded`.  The returned `violationCount` is
`session ? session.violations.length : 0`, i.e. the in-memory list
length (after the push), not the stored count. -/
def logViolation (now : Nat) (s : ProctorState) (sid : String) (vd : ViolationData) :
    ProctorState × LogResult :=
  match findSession s sid with
  | none => (s, .error)
  | some _ =>
    let vrow : ViolationRow :=
      { session_id := sid
        violation_type := vd.violationType
        severity := vd.severity
        description := vd.description
        evidence := vd.evidence
        auto_flagged := vd.autoFlagged
        timestamp := now }
    let s1 : ProctorState :=
      { s with
          violations := s.violations ++ [vrow]
          sessions := s.sessions.map (fun r =>
            if r.session_id == sid then { r with violation_count := r.violation_count + 1 }
            else r) }
    match memGet s1 sid with
    | none => (s1, .ok 0)
    | some m =>
      let m1 : MemSession :=
        { m with
            violations := m.violations ++
              [{ type := vd.violationType
                 severity := vd.severity
                 timestamp := now
                 description := vd.description
                 evidence := vd.evidence }]
            lastActivity := now }
      let s2 : ProctorState :=
        { s1 with
            mem := s1.mem.map (fun p => if p.1 == sid then (p.1, m1) else p) }
      if m1.strictMode ∧ 3 ≤ m1.violations.length then
        ((terminateSession now s2 sid "violation_threshold_exceeded").1,
         .ok m1.violations.length)
      else
        (s2, .ok m1.violations.length)

/-- Result shape of `getSession` (part_004 lines 178-212): the session
row joined with `COUNT(pv.id) as total_violations`, plus the violation
rows of the session (the `ORDER BY timestamp DESC` display ordering is
not modelled). -/
structure GetSessionResult where
  row : SessionRow
  total_violations : Nat
  violations : List ViolationRow
deriving DecidableEq, Repr

def getSession (s : ProctorState) (sid : String) : Option GetSessionResult :=
  match findSession s sid with
  | none => none
  | some r =>
    some { row := r
           total_violations := (s.violations.filter (fun v => v.session_id == sid)).length
           violations := s.violations.filter (fun v => v.session_id == sid) }

/-- The events a deployment can undergo: the three mutating manager
calls, plus a process restart, which empties the in-memory
`activeSessions` map and leaves the database untouched. -/
inductive POp where
  | start (now : Nat) (d : SessionData)
  | logv (now : Nat) (sid : String) (vd : ViolationData)
  | endS (now : Nat) (sid : String) (reason : String)
  | restart
deriving DecidableEq, Repr

def pstep (s : ProctorState) : POp → ProctorState
  | .start now d => (startSession now s d).1
  | .logv now sid vd => (logViolation now s sid vd).1
  | .endS now sid reason => (endSession now s sid reason).1
  | .restart => { s with mem := [] }

def runOps (ops : List POp) : ProctorState :=
  ops.foldl pstep ProctorState.init

theorem findRowBy_map_update (l : List SessionRow) (sid : String) (f : SessionRow → SessionRow)
    (hf : ∀ r, (f r).session_id = r.session_id) :
    findRowBy (l.map (fun r => if r.session_id == sid then f r else r)) sid
      = (findRowBy l sid).map f := by
  induction l with
  | nil => rfl
  | cons a t ih =>
    cases hpa : (a.session_id == sid) with
    | true =>
      have hfa : ((f a).session_id == sid) = true := by rw [hf]; exact hpa
      rw [List.map_cons, if_pos hpa]
      unfold findRowBy
      rw [if_pos hfa, if_pos hpa, Option.map]
    | false =>
      have hfa : ((f a).session_id == sid) = false := by rw [hf]; exact hpa
      have hpa2 : ¬((a.session_id == sid) = true) := by rw [hpa]; exact Bool.false_ne_true
      rw [List.map_cons, if_neg hpa2]
      unfold findRowBy
      rw [if_neg hpa2, if_neg hpa2, ih]

theorem findRowBy_eq_none :
    ∀ {l : List SessionRow} {sid : String}, findRowBy l sid = none →
      ∀ r ∈ l, (r.session_id == sid) = false := by
  intro l
  induction l with
  | nil => intro sid h r hr; simp at hr
  | cons a t ih =>
    intro sid h r hr
    unfold findRowBy at h
    cases hpa : (a.session_id == sid) with
    | true =>
      rw [if_pos hpa] at h
      exact absurd h (by simp)
    | false =>
      rw [if_neg (by rw [hpa]; exact Bool.false_ne_true)] at h
      rcases List.mem_cons.mp hr with h1 | h1
      · rw [h1]; exact hpa
      · exact ih h r h1

theorem findSession_endSession (now : Nat) (s : ProctorState) (sid reason : String) :
    findSession (endSession now s sid reason).1 sid
      = (findSession s sid).map (fun r =>
          { r with
            status := if reason == "completed" then "completed" else "terminated"
            end_time := some now }) := by
  unfold findSession endSession
  exact findRowBy_map_update s.sessions sid _ (fun r => rfl)

theorem terminated_ne_completed (reason : String) :
    ("terminated_" ++ reason) ≠ "completed" := by
  intro h
  have h2 := congrArg String.length h
  rw [String.length_append] at h2
  have h3 : ("terminated_" : String).length = 11 := rfl
  have h4 : ("completed" : String).length = 9 := rfl
  omega

/-- Claim C10 (confirmed). `endSession` maps its reason argument to the
stored status by exact string comparison: the affected row's status
becomes `'completed'` iff the reason is exactly the string
`'completed'`, and `'terminated'` for every other reason — in
particular for every `terminated_<reason>` value produced by
`terminateSession`; and `endSession` reports success even when the
given `sessionId` does not exist in the store (the rows are untouched
and no NotFound check is made). -/
theorem endSession_reason_mapping (now : Nat) (s : ProctorState) (sid reason : String) :
    ((endSession now s sid reason).2 = .ok reason) ∧
    (∀ r', findSession (endSession now s sid reason).1 sid = some r' →
      (r'.status = "completed" ↔ reason = "completed") ∧
      (reason ≠ "completed" → r'.status = "terminated")) ∧
    (findSession s sid = none → (endSession now s sid reason).1.sessions = s.sessions) ∧
    (∀ treason r', findSession (terminateSession now s sid treason).1 sid = some r' →
      r'.status = "terminated") := by
  refine ⟨rfl, ?_, ?_, ?_⟩
  · intro r' h
    rw [findSession_endSession] at h
    cases hfind : findSession s sid with
    | none => rw [hfind] at h; exact absurd h (by simp)
    | some r =>
      rw [hfind] at h
      simp only [Option.map] at h
      have hr' := Option.some.inj h
      by_cases hreason : reason = "completed"
      · have hb : (reason == "completed") = true := by
          rw [hreason]; rfl
        have hst : r'.status = "completed" := by rw [← hr']; simp [hb]
        exact ⟨by rw [hst]; exact ⟨fun _ => hreason, fun _ => rfl⟩,
          fun hc => absurd hreason hc⟩
      · have hb : (reason == "completed") = false := by
          rw [beq_eq_false_iff_ne]; exact hreason
        have hst : r'.status = "terminated" := by rw [← hr']; simp [hb]
        refine ⟨?_, fun _ => hst⟩
        rw [hst]
        exact ⟨fun hc => absurd hc (by decide), fun hc => absurd hc hreason⟩
  · intro hnone
    unfold endSession
    have hall := findRowBy_eq_none hnone
    show s.sessions.map _ = s.sessions
    calc s.sessions.map (fun r =>
          if r.session_id == sid then
            { r with
              status := if reason == "completed" then "completed" else "terminated"
              end_time := some now }
          else r)
        = s.sessions.map id := by
          apply List.map_congr_left
          intro a ha
          have := hall a ha
          simp only [id]
          rw [if_neg (by rw [this]; exact Bool.false_ne_true)]
      _ = s.sessions := List.map_id s.sessions
  · intro treason r' h
    unfold terminateSession at h
    rw [findSession_endSession] at h
    cases hfind : findSession s sid with
    | none => rw [hfind] at h; exact absurd h (by simp)
    | some r =>
      rw [hfind] at h
      simp only [Option.map] at h
      have hr' := Option.some.inj h
      have hb : (("terminated_" ++ treason) == "completed") = false := by
        rw [beq_eq_false_iff_ne]; exact terminated_ne_completed treason
      rw [← hr']
      simp [hb]

/-- Witness for C10 at a concrete one-session state: ending with reason
`"abandoned"` reports success and stores status `terminated`, and ending
an unknown id succeeds and leaves the rows unchanged. -/
theorem endSession_reason_mapping_witness :
    ((endSession 5
        ⟨[{ session_id := "s1", user_email := "u", user_name := "U",
            assessment_id := "a", status := "active", start_time := 0 }], [], []⟩
        "s1" "abandoned").2 = .ok "abandoned") ∧
    (({ session_id := "s1", user_email := "u", user_name := "U",
        assessment_id := "a", status := "terminated", start_time := 0,
        end_time := some 5 } : SessionRow).status = "terminated") ∧
    ((endSession 5
        ⟨[{ session_id := "s1", user_email := "u", user_name := "U",
            assessment_id := "a", status := "active", start_time := 0 }], [], []⟩
        "zzz" "whatever").1.sessions
      = [{ session_id := "s1", user_email := "u", user_name := "U",
           assessment_id := "a", status := "active", start_time := 0 }]) := by
  refine ⟨(endSession_reason_mapping 5
      ⟨[{ session_id := "s1", user_email := "u", user_name := "U",
          assessment_id := "a", status := "active", start_time := 0 }], [], []⟩
      "s1" "abandoned").1, ?_, ?_⟩
  · exact ((endSession_reason_mapping 5
        ⟨[{ session_id := "s1", user_email := "u", user_name := "U",
            assessment_id := "a", status := "active", start_time := 0 }], [], []⟩
        "s1" "abandoned").2.1
        { session_id := "s1", user_email := "u", user_name := "U",
          assessment_id := "a", status := "terminated", start_time := 0,
          end_time := some 5 } (by decide)).2 (by decide)
  · exact (endSession_reason_mapping 5
      ⟨[{ session_id := "s1", user_email := "u", user_name := "U",
          assessment_id := "a", status := "active", start_time := 0 }], [], []⟩
      "zzz" "whatever").2.2.1 (by decide)

theorem endSession_row_after (now : Nat) (s : ProctorState) (sid reason : String)
    (r' : SessionRow)
    (h : findSession (endSession now s sid reason).1 sid = some r') :
    r'.status = (if reason == "completed" then "completed" else "terminated") ∧
    r'.end_time = some now := by
  rw [findSession_endSession] at h
  cases hfind : findSession s sid with
  | none => rw [hfind] at h; exact absurd h (by simp)
  | some r =>
    rw [hfind] at h
    simp only [Option.map] at h
    have hr' := Option.some.inj h
    rw [← hr']
    exact ⟨rfl, rfl⟩

/-- Claim C5 counterexample. `endSession` is *not* idempotent on terminal
sessions: on a session completed at time 1, a second `endSession` at
time 2 with reason `"abandoned"` flips the stored status from
`completed` to `terminated` and refreshes `end_time` from 1 to 2,
instead of leaving the terminal state unchanged. -/
theorem endSession_second_call_overwrites :
    (findSession (endSession 1
        ⟨[{ session_id := "s1", user_email := "u", user_name := "U",
            assessment_id := "a", status := "active", start_time := 0 }], [], []⟩
        "s1" "completed").1 "s1"
      = some { session_id := "s1", user_email := "u", user_name := "U",
               assessment_id := "a", status := "completed", start_time := 0,
               end_time := some 1 }) ∧
    (findSession (endSession 2 (endSession 1
        ⟨[{ session_id := "s1", user_email := "u", user_name := "U",
            assessment_id := "a", status := "active", start_time := 0 }], [], []⟩
        "s1" "completed").1 "s1" "abandoned").1 "s1"
      = some { session_id := "s1", user_email := "u", user_name := "U",
               assessment_id := "a", status := "terminated", start_time := 0,
               end_time := some 2 }) := by
  decide

/-- Claim C5 (corrected). Calling `endSession` again on a session that a
first `endSession` call left terminal never errors — the second call
reports `{ success: true, reason }` — but it does not preserve the
existing terminal state: the affected row's status is recomputed from
the *second* call's reason by the exact-string rule and `end_time` is
refreshed to the second call's timestamp. -/
theorem endSession_terminal_overwrite (now1 now2 : Nat) (s : ProctorState)
    (sid reason1 reason2 : String) :
    ((endSession now2 (endSession now1 s sid reason1).1 sid reason2).2 = .ok reason2) ∧
    (∀ r', findSession (endSession now2 (endSession now1 s sid reason1).1 sid reason2).1 sid
        = some r' →
      r'.status = (if reason2 == "completed" then "completed" else "terminated") ∧
      r'.end_time = some now2) := by
  refine ⟨rfl, ?_⟩
  intro r' h
  exact endSession_row_after now2 (endSession now1 s sid reason1).1 sid reason2 r' h

/-- Witness for C5 at the concrete completed-then-abandoned session. -/
theorem endSession_terminal_overwrite_witness :
    ((endSession 2 (endSession 1
        ⟨[{ session_id := "s1", user_email := "u", user_name := "U",
            assessment_id := "a", status := "active", start_time := 0 }], [], []⟩
        "s1" "completed").1 "s1" "abandoned").2 = .ok "abandoned") ∧
    (({ session_id := "s1", user_email := "u", user_name := "U",
        assessment_id := "a", status := "terminated", start_time := 0,
        end_time := some 2 } : SessionRow).status
      = (if ("abandoned" == "completed") then "completed" else "terminated")) := by
  refine ⟨(endSession_terminal_overwrite 1 2
      ⟨[{ session_id := "s1", user_email := "u", user_name := "U",
          assessment_id := "a", status := "active", start_time := 0 }], [], []⟩
      "s1" "completed" "abandoned").1, ?_⟩
  exact ((endSession_terminal_overwrite 1 2
      ⟨[{ session_id := "s1", user_email := "u", user_name := "U",
          assessment_id := "a", status := "active", start_time := 0 }], [], []⟩
      "s1" "completed" "abandoned").2
      { session_id := "s1", user_email := "u", user_name := "U",
        assessment_id := "a", status := "terminated", start_time := 0,
        end_time := some 2 } (by decide)).1

/-- Claim C1 counterexample. The strict-mode threshold check reads the
*in-memory* violations list, so it does not survive a process restart:
a session started with `strictMode = true` receives two violations, the
process restarts (emptying `activeSessions`), and the call recording
the 3rd violation (stored `violation_count` reaches 3) leaves the
session status `"active"` — no termination — and reports
`violationCount: 0`.  This refutes the claim's "regardless of process
restarts between the violations". -/
theorem strict_third_violation_after_restart_not_terminated :
    ((logViolation 3
        (runOps [.start 0 { sessionId := "s1", userEmail := "u", userName := "U",
                            assessmentId := "a", strictMode := true },
                 .logv 1 "s1" { violationType := "tab_switch" },
                 .logv 2 "s1" { violationType := "window_blur" },
                 .restart])
        "s1" { violationType := "copy_paste" }).2 = .ok 0) ∧
    ((findSession (logViolation 3
        (runOps [.start 0 { sessionId := "s1", userEmail := "u", userName := "U",
                            assessmentId := "a", strictMode := true },
                 .logv 1 "s1" { violationType := "tab_switch" },
                 .logv 2 "s1" { violationType := "window_blur" },
                 .restart])
        "s1" { violationType := "copy_paste" }).1 "s1").map SessionRow.status
      = some "active") ∧
    ((findSession (logViolation 3
        (runOps [.start 0 { sessionId := "s1", userEmail := "u", userName := "U",
                            assessmentId := "a", strictMode := true },
                 .logv 1 "s1" { violationType := "tab_switch" },
                 .logv 2 "s1" { violationType := "window_blur" },
                 .restart])
        "s1" { violationType := "copy_paste" }).1 "s1").map SessionRow.violation_count
      = some 3) := by
  decide

/-- Claim C1 (corrected). When the in-memory session entry is present
(i.e. no process restart since `startSession`) with `strictMode = true`
and two violations already cached, the `logViolation` call recording
the 3rd violation synchronously transitions the session row to status
`"terminated"` (via `terminateSession` with reason
`violation_threshold_exceeded`, stored simply as status `terminated`
with `end_time` stamped) — regardless of the violation type mix; the
call's response is `{ success: true, violationCount: 3 }`, which
carries the updated count but no dedicated session-closed flag. -/
theorem strict_third_violation_terminates (now : Nat) (s : ProctorState) (sid : String)
    (vd : ViolationData) (r : SessionRow) (m : MemSession)
    (hfound : findSession s sid = some r)
    (hmem : memGet s sid = some m)
    (hstrict : m.strictMode = true)
    (hlen : m.violations.length = 2) :
    ((logViolation now s sid vd).2 = .ok 3) ∧
    (∀ r', findSession (logViolation now s sid vd).1 sid = some r' →
      r'.status = "terminated" ∧ r'.end_time = some now) := by
  have hmem2 : memLookup s.mem sid = some m := hmem
  have hfound2 : findRowBy s.sessions sid = some r := hfound
  have hlen3 : (m.violations ++
      [({ type := vd.violationType, severity := vd.severity, timestamp := now,
          description := vd.description, evidence := vd.evidence } : MemViolation)]).length = 3 := by
    rw [List.length_append, hlen]
    rfl
  have hres : logViolation now s sid vd =
      ((terminateSession now
        { s with
            violations := s.violations ++
              [{ session_id := sid, violation_type := vd.violationType,
                 severity := vd.severity, description := vd.description,
                 evidence := vd.evidence, auto_flagged := vd.autoFlagged,
                 timestamp := now }]
            sessions := s.sessions.map (fun r2 =>
              if r2.session_id == sid then { r2 with violation_count := r2.violation_count + 1 }
              else r2)
            mem := (s.mem.map (fun p => if p.1 == sid then (p.1,
              { m with
                  violations := m.violations ++
                    [{ type := vd.violationType, severity := vd.severity, timestamp := now,
                       description := vd.description, evidence := vd.evidence }]
                  lastActivity := now }) else p)) }
        sid "violation_threshold_exceeded").1,
       .ok 3) := by
    unfold logViolation
    rw [hfound]
    simp only [memGet, hmem2, hlen3]
    rw [if_pos (show m.strictMode = true ∧ 3 ≤ 3 from ⟨hstrict, Nat.le.refl⟩)]
  constructor
  · rw [hres]
  · intro r' h
    rw [hres] at h
    unfold terminateSession at h
    have := endSession_row_after now _ sid ("terminated_" ++ "violation_threshold_exceeded") r' h
    rcases this with ⟨h1, h2⟩
    refine ⟨?_, h2⟩
    rw [h1]
    rw [if_neg (by
      rw [beq_eq_false_iff_ne.mpr (terminated_ne_completed "violation_threshold_exceeded")]
      exact Bool.false_ne_true)]

/-- Witness for C1's amended theorem: a strict session with two cached
violations, third violation logged at time 3. -/
theorem strict_third_violation_terminates_witness :
    (logViolation 3
      (runOps [.start 0 { sessionId := "s1", userEmail := "u", userName := "U",
                          assessmentId := "a", strictMode := true },
               .logv 1 "s1" { violationType := "tab_switch" },
               .logv 2 "s1" { violationType := "window_blur" }])
      "s1" { violationType := "copy_paste" }).2 = .ok 3 :=
  (strict_third_violation_terminates 3
    (runOps [.start 0 { sessionId := "s1", userEmail := "u", userName := "U",
                        assessmentId := "a", strictMode := true },
             .logv 1 "s1" { violationType := "tab_switch" },
             .logv 2 "s1" { violationType := "window_blur" }])
    "s1" { violationType := "copy_paste" }
    { session_id := "s1", user_email := "u", user_name := "U", assessment_id := "a",
      status := "active", start_time := 0, violation_count := 2, strict_mode := true }
    { strictMode := true,
      violations := [{ type := "tab_switch", severity := "medium", timestamp := 1,
                       description := "", evidence := "{}" },
                     { type := "window_blur", severity := "medium", timestamp := 2,
                       description := "", evidence := "{}" }],
      startTime := 0, lastActivity := 2 }
    (by decide) (by decide) rfl rfl).1

/-- The concrete store for the C4 counterexample: one session started at
time 0 and ended (status `completed`) at time 1. -/
def endedSessionState : ProctorState :=
  runOps [.start 0 { sessionId := "s1", userEmail := "u", userName := "U",
                     assessmentId := "a" },
          .endS 1 "s1" "completed"]

/-- Claim C4 counterexample. After a session has been ended (status
`"completed"`, a terminal state), a subsequent `logViolation` call on it
does *not* fail: the session row is still in the database, so the
foreign-key-guarded insert succeeds, a violation record is appended,
the stored counter is incremented to 1, and the call reports
`{ success: true, violationCount: 0 }` (0 because the in-memory entry
was deleted when the session ended). -/
theorem logViolation_on_terminal_session_succeeds :
    ((logViolation 2 endedSessionState "s1" { violationType := "tab_switch" }).2 = .ok 0) ∧
    ((findSession endedSessionState "s1").map SessionRow.status = some "completed") ∧
    ((logViolation 2 endedSessionState "s1"
        { violationType := "tab_switch" }).1.violations.length = 1) ∧
    ((findSession (logViolation 2 endedSessionState "s1"
        { violationType := "tab_switch" }).1 "s1").map SessionRow.violation_count
      = some 1) := by
  decide

/-- Claim C4 (corrected). `logViolation` on an unknown `sessionId` fails,
but with the raw database foreign-key error (surfaced by the route as a
generic 500), not a typed `SessionNotFound`; and on a session whose row
still exists but whose in-memory entry is gone (as after `endSession`
put it in a terminal state, or after a restart) the call does *not*
fail: it appends a violation record, increments the stored counter of
the session row, and reports success with `violationCount: 0`. -/
theorem logViolation_unknown_and_terminal (now : Nat) (s : ProctorState) (sid : String)
    (vd : ViolationData) :
    (findSession s sid = none → logViolation now s sid vd = (s, .error)) ∧
    (∀ r, findSession s sid = some r → memGet s sid = none →
      ((logViolation now s sid vd).2 = .ok 0) ∧
      ((logViolation now s sid vd).1.violations.length = s.violations.length + 1) ∧
      (findSession (logViolation now s sid vd).1 sid
        = some { r with violation_count := r.violation_count + 1 })) := by
  constructor
  · intro hnone
    unfold logViolation
    rw [hnone]
  · intro r hfound hmemnone
    have hmem2 : memLookup s.mem sid = none := hmemnone
    have hres : logViolation now s sid vd =
        ({ s with
            violations := s.violations ++
              [{ session_id := sid, violation_type := vd.violationType,
                 severity := vd.severity, description := vd.description,
                 evidence := vd.evidence, auto_flagged := vd.autoFlagged,
                 timestamp := now }]
            sessions := s.sessions.map (fun r2 =>
              if r2.session_id == sid then { r2 with violation_count := r2.violation_count + 1 }
              else r2) },
         .ok 0) := by
      unfold logViolation
      rw [hfound]
      simp only [memGet, hmem2]
    refine ⟨by rw [hres], ?_, ?_⟩
    · rw [hres]
      exact List.length_append s.violations _
    · rw [hres]
      show findRowBy (s.sessions.map _) sid = _
      rw [findRowBy_map_update s.sessions sid
        (fun r2 => { r2 with violation_count := r2.violation_count + 1 }) (fun r2 => rfl)]
      rw [show findRowBy s.sessions sid = some r from hfound]
      rfl

/-- Witness for C4's amended theorem: the unknown-id branch at an empty
store, and the terminal-session branch at the concrete
completed-then-logged session. -/
theorem logViolation_unknown_and_terminal_witness :
    (logViolation 0 ProctorState.init "nope" { violationType := "tab_switch" }
      = (ProctorState.init, .error)) ∧
    ((logViolation 2 endedSessionState "s1" { violationType := "tab_switch" }).2 = .ok 0) :=
  ⟨(logViolation_unknown_and_terminal 0 ProctorState.init "nope"
      { violationType := "tab_switch" }).1 (by decide),
   ((logViolation_unknown_and_terminal 2 endedSessionState
      "s1" { violationType := "tab_switch" }).2
      { session_id := "s1", user_email := "u", user_name := "U", assessment_id := "a",
        status := "completed", start_time := 0, end_time := some 1 }
      (by decide) (by decide)).1⟩

/-- Number of stored Violation records for a session (`COUNT(pv.id)`
grouped by session). -/
def countFor (vs : List ViolationRow) (sid : String) : Nat :=
  (vs.filter (fun v => v.session_id == sid)).length

/-- The stored `violation_count` of every session row equals the number
of stored Violation records for that session. -/
def storeConsistent (s : ProctorState) : Prop :=
  ∀ r ∈ s.sessions, r.violation_count = countFor s.violations r.session_id

/-- The declared foreign key: every Violation record points at an
existing session row. -/
def fkConsistent (s : ProctorState) : Prop :=
  ∀ v ∈ s.violations, ∃ r ∈ s.sessions, r.session_id = v.session_id

def dbConsistent (s : ProctorState) : Prop :=
  storeConsistent s ∧ fkConsistent s

theorem countFor_append_single (vs : List ViolationRow) (v : ViolationRow) (sid : String) :
    countFor (vs ++ [v]) sid
      = countFor vs sid + (if v.session_id == sid then 1 else 0) := by
  unfold countFor
  rw [List.filter_append, List.length_append]
  cases h : (v.session_id == sid) with
  | true => simp [h]
  | false => simp [h]

theorem findRowBy_eq_some :
    ∀ {l : List SessionRow} {sid : String} {r : SessionRow},
      findRowBy l sid = some r → r ∈ l ∧ r.session_id = sid := by
  intro l
  induction l with
  | nil => intro sid r h; exact absurd h (by simp [findRowBy])
  | cons a t ih =>
    intro sid r h
    unfold findRowBy at h
    cases hpa : (a.session_id == sid) with
    | true =>
      rw [if_pos hpa] at h
      have ha := Option.some.inj h
      refine ⟨by rw [← ha]; exact List.mem_cons_self a t, ?_⟩
      rw [← ha]
      exact (beq_iff_eq).mp hpa
    | false =>
      rw [if_neg (by rw [hpa]; exact Bool.false_ne_true)] at h
      obtain ⟨hmem, hid⟩ := ih h
      exact ⟨List.mem_cons_of_mem a hmem, hid⟩

theorem dbConsistent_endSession (now : Nat) (s : ProctorState) (sid reason : String)
    (h : dbConsistent s) : dbConsistent (endSession now s sid reason).1 := by
  obtain ⟨hsc, hfk⟩ := h
  constructor
  · intro r' hr'
    rcases List.mem_map.mp hr' with ⟨r, hr, hfr⟩
    have hvc : r'.violation_count = r.violation_count := by
      rw [← hfr]
      by_cases hc : (r.session_id == sid) = true
      · rw [if_pos hc]
      · rw [if_neg hc]
    have hid : r'.session_id = r.session_id := by
      rw [← hfr]
      by_cases hc : (r.session_id == sid) = true
      · rw [if_pos hc]
      · rw [if_neg hc]
    rw [hvc, hid]
    exact hsc r hr
  · intro v hv
    rcases hfk v hv with ⟨r, hr, he⟩
    refine ⟨if r.session_id == sid then
        { r with
          status := if reason == "completed" then "completed" else "terminated"
          end_time := some now }
      else r, List.mem_map_of_mem _ hr, ?_⟩
    by_cases hc : (r.session_id == sid) = true
    · rw [if_pos hc]; exact he
    · rw [if_neg hc]; exact he

theorem dbConsistent_logViolation (now : Nat) (s : ProctorState) (sid : String)
    (vd : ViolationData) (h : dbConsistent s) :
    dbConsistent (logViolation now s sid vd).1 := by
  obtain ⟨hsc, hfk⟩ := h
  cases hfind : findSession s sid with
  | none =>
    have hres : logViolation now s sid vd = (s, .error) := by
      unfold logViolation
      rw [hfind]
    rw [hres]
    exact ⟨hsc, hfk⟩
  | some r0 =>
    obtain ⟨hr0mem, hr0id⟩ := findRowBy_eq_some hfind
    have hs1 : dbConsistent
        { s with
            violations := s.violations ++
              [{ session_id := sid, violation_type := vd.violationType,
                 severity := vd.severity, description := vd.description,
                 evidence := vd.evidence, auto_flagged := vd.autoFlagged,
                 timestamp := now }]
            sessions := s.sessions.map (fun r2 =>
              if r2.session_id == sid then { r2 with violation_count := r2.violation_count + 1 }
              else r2) } := by
      constructor
      · intro r' hr'
        rcases List.mem_map.mp hr' with ⟨r, hr, hfr⟩
        by_cases hc : (r.session_id == sid) = true
        · rw [if_pos hc] at hfr
          rw [← hfr]
          have hsid : (sid == r.session_id) = true := by
            rw [beq_iff_eq]
            exact ((beq_iff_eq).mp hc).symm
          show r.violation_count + 1 = countFor (s.violations ++
            [{ session_id := sid, violation_type := vd.violationType,
               severity := vd.severity, description := vd.description,
               evidence := vd.evidence, auto_flagged := vd.autoFlagged,
               timestamp := now }]) r.session_id
          rw [countFor_append_single, hsc r hr]
          show _ = _ + (if (sid == r.session_id) = true then 1 else 0)
          rw [if_pos hsid]
        · rw [if_neg hc] at hfr
          rw [← hfr]
          have hsid : (sid == r.session_id) = false := by
            rw [beq_eq_false_iff_ne]
            intro heq
            rw [heq] at hc
            exact hc (beq_self_eq_true r.session_id)
          show r.violation_count = countFor (s.violations ++
            [{ session_id := sid, violation_type := vd.violationType,
               severity := vd.severity, description := vd.description,
               evidence := vd.evidence, auto_flagged := vd.autoFlagged,
               timestamp := now }]) r.session_id
          rw [countFor_append_single, hsc r hr]
          show _ = _ + (if (sid == r.session_id) = true then 1 else 0)
          rw [if_neg (by rw [hsid]; exact Bool.false_ne_true), Nat.add_zero]
      · intro v hv
        rcases List.mem_append.mp hv with h1 | h1
        · rcases hfk v h1 with ⟨r, hr, he⟩
          refine ⟨if r.session_id == sid then
              { r with violation_count := r.violation_count + 1 } else r,
            List.mem_map_of_mem _ hr, ?_⟩
          by_cases hc : (r.session_id == sid) = true
          · rw [if_pos hc]; exact he
          · rw [if_neg hc]; exact he
        · have hv2 := List.mem_singleton.mp h1
          have hc : (r0.session_id == sid) = true := by
            rw [beq_iff_eq]; exact hr0id
          refine ⟨if r0.session_id == sid then
              { r0 with violation_count := r0.violation_count + 1 } else r0,
            List.mem_map_of_mem _ hr0mem, ?_⟩
          rw [if_pos hc, hv2]
          show r0.session_id = sid
          exact hr0id
    cases hmem : memLookup s.mem sid with
    | none =>
      have hres : (logViolation now s sid vd).1 =
          { s with
              violations := s.violations ++
                [{ session_id := sid, violation_type := vd.violationType,
                   severity := vd.severity, description := vd.description,
                   evidence := vd.evidence, auto_flagged := vd.autoFlagged,
                   timestamp := now }]
              sessions := s.sessions.map (fun r2 =>
                if r2.session_id == sid then { r2 with violation_count := r2.violation_count + 1 }
                else r2) } := by
        unfold logViolation
        rw [hfind]
        simp only [memGet, hmem]
      rw [hres]
      exact hs1
    | some m =>
      by_cases hcond : m.strictMode = true ∧ 3 ≤ (m.violations ++
          [({ type := vd.violationType, severity := vd.severity, timestamp := now,
              description := vd.description, evidence := vd.evidence } : MemViolation)]).length
      · have hres : (logViolation now s sid vd).1 =
            (endSession now
              { s with
                  violations := s.violations ++
                    [{ session_id := sid, violation_type := vd.violationType,
                       severity := vd.severity, description := vd.description,
                       evidence := vd.evidence, auto_flagged := vd.autoFlagged,
                       timestamp := now }]
                  sessions := s.sessions.map (fun r2 =>
                    if r2.session_id == sid then { r2 with violation_count := r2.violation_count + 1 }
                    else r2)
                  mem := (s.mem.map (fun p => if p.1 == sid then (p.1,
                    { m with
                        violations := m.violations ++
                          [{ type := vd.violationType, severity := vd.severity, timestamp := now,
                             description := vd.description, evidence := vd.evidence }]
                        lastActivity := now }) else p)) }
              sid ("terminated_" ++ "violation_threshold_exceeded")).1 := by
          unfold logViolation terminateSession
          rw [hfind]
          simp only [memGet, hmem]
          rw [if_pos hcond]
        rw [hres]
        apply dbConsistent_endSession
        exact hs1
      · have hres : (logViolation now s sid vd).1 =
            { s with
                violations := s.violations ++
                  [{ session_id := sid, violation_type := vd.violationType,
                     severity := vd.severity, description := vd.description,
                     evidence := vd.evidence, auto_flagged := vd.autoFlagged,
                     timestamp := now }]
                sessions := s.sessions.map (fun r2 =>
                  if r2.session_id == sid then { r2 with violation_count := r2.violation_count + 1 }
                  else r2)
                mem := (s.mem.map (fun p => if p.1 == sid then (p.1,
                  { m with
                      violations := m.violations ++
                        [{ type := vd.violationType, severity := vd.severity, timestamp := now,
                           description := vd.description, evidence := vd.evidence }]
                      lastActivity := now }) else p)) } := by
          unfold logViolation
          rw [hfind]
          simp only [memGet, hmem]
          rw [if_neg hcond]
        rw [hres]
        exact hs1

theorem dbConsistent_pstep (s : ProctorState) (op : POp)
    (h : dbConsistent s) : dbConsistent (pstep s op) := by
  obtain ⟨hsc, hfk⟩ := h
  cases op with
  | start now d =>
    show dbConsistent (startSession now s d).1
    cases hfind : findSession s d.sessionId with
    | some r =>
      have hres : startSession now s d = (s, .error) := by
        unfold startSession
        rw [hfind]
      rw [hres]
      exact ⟨hsc, hfk⟩
    | none =>
      have hres : startSession now s d =
          ({ s with
              sessions := s.sessions ++
                [{ session_id := d.sessionId, user_email := d.userEmail,
                   user_name := d.userName, assessment_id := d.assessmentId,
                   proctoring_level := d.proctoringLevel, status := "active",
                   start_time := now, strict_mode := d.strictMode }]
              mem := s.mem ++ [(d.sessionId,
                { strictMode := d.strictMode, violations := [], startTime := now,
                  lastActivity := now })] },
           .ok d.sessionId) := by
        unfold startSession
        rw [hfind]
      rw [hres]
      have hnov : ∀ v ∈ s.violations, (v.session_id == d.sessionId) = false := by
        intro v hv
        rcases hfk v hv with ⟨r2, hr2, he⟩
        have hf := findRowBy_eq_none hfind r2 hr2
        rw [he] at hf
        exact hf
      constructor
      · intro r hr
        rcases List.mem_append.mp hr with h1 | h1
        · exact hsc r h1
        · have hr2 := List.mem_singleton.mp h1
          rw [hr2]
          show (0 : Nat) = countFor s.violations d.sessionId
          unfold countFor
          rw [List.filter_eq_nil_iff.mpr (fun v hv => by
            rw [hnov v hv]; exact Bool.false_ne_true)]
          rfl
      · intro v hv
        rcases hfk v hv with ⟨r2, hr2, he⟩
        exact ⟨r2, List.mem_append_left _ hr2, he⟩
  | logv now sid vd =>
    exact dbConsistent_logViolation now s sid vd ⟨hsc, hfk⟩
  | endS now sid reason =>
    exact dbConsistent_endSession now s sid reason ⟨hsc, hfk⟩
  | restart =>
    exact ⟨hsc, hfk⟩

theorem dbConsistent_runOps (ops : List POp) : dbConsistent (runOps ops) := by
  have hgen : ∀ (l : List POp) (s : ProctorState), dbConsistent s →
      dbConsistent (l.foldl pstep s) := by
    intro l
    induction l with
    | nil => intro s h; exact h
    | cons op t ih =>
      intro s h
      exact ih (pstep s op) (dbConsistent_pstep s op h)
  exact hgen ops ProctorState.init
    ⟨fun r hr => absurd hr (by simp [ProctorState.init]),
     fun v hv => absurd hv (by simp [ProctorState.init])⟩

theorem countFor_pstep_mono (s : ProctorState) (op : POp) (sid : String) :
    countFor s.violations sid ≤ countFor (pstep s op).violations sid := by
  cases op with
  | start now d =>
    show countFor s.violations sid ≤ countFor (startSession now s d).1.violations sid
    have hres : (startSession now s d).1.violations = s.violations := by
      unfold startSession
      cases hfind : findSession s d.sessionId with
      | some r => rfl
      | none => rfl
    rw [hres]
  | logv now sid2 vd =>
    show countFor s.violations sid ≤ countFor (logViolation now s sid2 vd).1.violations sid
    cases hfind : findSession s sid2 with
    | none =>
      have hres : (logViolation now s sid2 vd).1.violations = s.violations := by
        unfold logViolation
        rw [hfind]
      rw [hres]
    | some r0 =>
      have hres : (logViolation now s sid2 vd).1.violations = s.violations ++
          [{ session_id := sid2, violation_type := vd.violationType,
             severity := vd.severity, description := vd.description,
             evidence := vd.evidence, auto_flagged := vd.autoFlagged,
             timestamp := now }] := by
        unfold logViolation terminateSession
        rw [hfind]
        cases hmem : memLookup s.mem sid2 with
        | none => simp only [memGet, hmem]
        | some m =>
          simp only [memGet, hmem]
          by_cases hcond : m.strictMode = true ∧ 3 ≤ (m.violations ++
              [({ type := vd.violationType, severity := vd.severity, timestamp := now,
                  description := vd.description, evidence := vd.evidence } : MemViolation)]).length
          · rw [if_pos hcond]
            rfl
          · rw [if_neg hcond]
      rw [hres, countFor_append_single]
      exact Nat.le_add_right _ _
  | endS now sid2 reason => exact Nat.le_refl _
  | restart => exact Nat.le_refl _

/-- Claim C7 (corrected, store side). Over every sequence of operations
(session starts, violation logs, session ends, process restarts) from
the empty store: (1) every session row's stored `violation_count`
equals the number of stored Violation records for that session at every
observation point; (2) that count never decreases across any single
operation; and (3) `getSession` reports a `violation_count` equal to
the `total_violations` join count it returns.  (The value `logViolation`
itself *returns* is the in-memory list length, which can disagree after
a restart — see the counterexample.) -/
theorem violation_count_store_invariant :
    (∀ ops : List POp, ∀ r ∈ (runOps ops).sessions,
      r.violation_count = countFor (runOps ops).violations r.session_id) ∧
    (∀ (s : ProctorState) (op : POp) (sid : String),
      countFor s.violations sid ≤ countFor (pstep s op).violations sid) ∧
    (∀ (ops : List POp) (sid : String) (res : GetSessionResult),
      getSession (runOps ops) sid = some res →
      res.row.violation_count = res.total_violations) := by
  refine ⟨fun ops => (dbConsistent_runOps ops).1, countFor_pstep_mono, ?_⟩
  intro ops sid res hres
  unfold getSession at hres
  cases hfind : findSession (runOps ops) sid with
  | none => rw [hfind] at hres; exact absurd hres (by simp)
  | some r =>
    rw [hfind] at hres
    have hres2 := Option.some.inj hres
    obtain ⟨hmem, hid⟩ := findRowBy_eq_some hfind
    have h1 := (dbConsistent_runOps ops).1 r hmem
    rw [← hres2]
    show r.violation_count = _
    rw [h1, hid]
    rfl

/-- Operation list for the C7 witness: one session started, one
violation logged. -/
def oneLogOps : List POp :=
  [POp.start 0 { sessionId := "s1", userEmail := "u", userName := "U",
                 assessmentId := "a" },
   POp.logv 1 "s1" { violationType := "tab_switch" }]

/-- Witness for C7's amended theorem: the concrete started-and-logged
session after operations `[start, logv]` has stored count 1 equal to
its one stored record. -/
theorem violation_count_store_invariant_witness :
    ({ session_id := "s1", user_email := "u", user_name := "U", assessment_id := "a",
       status := "active", start_time := 0, violation_count := 1,
       strict_mode := false } : SessionRow).violation_count
      = countFor (runOps oneLogOps).violations "s1" :=
  violation_count_store_invariant.1 oneLogOps
    { session_id := "s1", user_email := "u", user_name := "U", assessment_id := "a",
      status := "active", start_time := 0, violation_count := 1, strict_mode := false }
    (by decide)

/-- Claim C7 counterexample. The `violationCount` returned by a
`logViolation` call is the in-memory list length, not the stored count:
after a restart the call records a 2nd violation (stored count 2, two
stored records) yet reports `violationCount: 0`. -/
theorem logViolation_count_after_restart_mismatch :
    ((logViolation 2
        (runOps [.start 0 { sessionId := "s1", userEmail := "u", userName := "U",
                            assessmentId := "a" },
                 .logv 1 "s1" { violationType := "tab_switch" },
                 .restart])
        "s1" { violationType := "window_blur" }).2 = .ok 0) ∧
    (countFor (logViolation 2
        (runOps [.start 0 { sessionId := "s1", userEmail := "u", userName := "U",
                            assessmentId := "a" },
                 .logv 1 "s1" { violationType := "tab_switch" },
                 .restart])
        "s1" { violationType := "window_blur" }).1.violations "s1" = 2) := by
  decide

/-! ## Admin data model: buckets, questions, quizzes (server.js)

MySQL tables as lists of row structures.  The nullable `INT` count
columns of `question_buckets` are `Option Int` (`none` = SQL `NULL`).
`JSON.parse`/`JSON.stringify` appear as explicit function parameters. -/

/-- A row of `questions` (columns not read by the claims' endpoints —
`options`, `correct_answer`, `points`, ... — are omitted). -/
structure QuestionRow where
  id : Nat
  bucket_id : Nat
  question_text : String
  difficulty : String
  is_active : Bool := true
deriving DecidableEq, Repr

/-- A row of `question_buckets` (schema at server.js lines 387-404); the
four denormalized counts are nullable `INT DEFAULT 0` columns. -/
structure BucketRow where
  id : Nat
  name : String
  total_questions : Option Int := some 0
  easy_count : Option Int := some 0
  medium_count : Option Int := some 0
  hard_count : Option Int := some 0
deriving DecidableEq, Repr

/-- The stored `questions` payload of a quiz row as seen by the read
path: a raw string (serialized JSON), an already-deserialized array, or
some other value (the JS code checks `typeof` and `Array.isArray`). -/
inductive QField where
  | str (s : String)
  | arr (qs : List Question)
  | other
deriving DecidableEq, Repr

/-- A row of `quizzes`. -/
structure QuizRow where
  id : String
  name : String
  description : String
  questions : QField
  points_per_question : Option Int := some 1
  is_custom : Bool := false
  randomization_settings : Option String := none
  proctoring_settings : Option String := none
deriving DecidableEq, Repr

/-- A row of `quiz_bucket_mappings` (schema at server.js lines 432-448). -/
structure MappingRow where
  quiz_id : String
  bucket_id : Nat
  easy_count : Int
  medium_count : Int
  hard_count : Int
  total_questions : Int
deriving DecidableEq, Repr

structure AdminDb where
  buckets : List BucketRow
  questions : List QuestionRow
  quizzes : List QuizRow
  mappings : List MappingRow
deriving DecidableEq, Repr

/-- The live active questions of a bucket
(`WHERE bucket_id = ? AND is_active = TRUE`). -/
def liveQuestions (db : AdminDb) (bucketId : Nat) : List QuestionRow :=
  db.questions.filter (fun q => q.bucket_id == bucketId && q.is_active)

/-- MySQL `SUM(CASE WHEN difficulty = d THEN 1 ELSE 0 END)` over the
live rows: the sum of an empty set is `NULL`, otherwise the number of
matching rows. -/
def sqlSumCount (rows : List QuestionRow) (d : String) : Option Int :=
  if rows.isEmpty then none
  else some ((rows.filter (fun q => q.difficulty == d)).length : Int)

/-- Model of `updateBucketCounts(bucketId)` (server.js lines 204-227): recompute
the denormalized counts from the live active questions and write them
onto the bucket row.  `COUNT(*)` is never `NULL`; each `SUM(CASE ...)`
is `NULL` when the bucket has no active questions.  The aggregate
`SELECT` (no `GROUP BY`) always yields exactly one row, so the
`counts.length > 0` guard always passes; an unknown `bucketId` makes
the `UPDATE` match no row. -/
def updateBucketCounts (db : AdminDb) (bucketId : Nat) : AdminDb :=
  { db with
      buckets := db.buckets.map (fun b =>
        if b.id == bucketId then
          { b with
              total_questions := some ((liveQuestions db bucketId).length : Int)
              easy_count := sqlSumCount (liveQuestions db bucketId) "easy"
              medium_count := sqlSumCount (liveQuestions db bucketId) "medium"
              hard_count := sqlSumCount (liveQuestions db bucketId) "hard" }
        else b) }

inductive DeleteResult where
  | ok
  | notFound
deriving DecidableEq, Repr

/-- Endpoint `DELETE /api/admin/questions/:id` (server.js lines 1624-1641):
`SELECT bucket_id`, hard `DELETE`, 404 when no row was affected,
otherwise recompute the affected bucket's counts. -/
def deleteQuestion (db : AdminDb) (qid : Nat) : AdminDb × DeleteResult :=
  if db.questions.all (fun q => !(q.id == qid)) then (db, .notFound)
  else
    match db.questions.find? (fun q => q.id == qid) with
    | some q =>
      (updateBucketCounts
        { db with questions := db.questions.filter (fun q2 => !(q2.id == qid)) }
        q.bucket_id, .ok)
    | none => ({ db with questions := db.questions.filter (fun q2 => !(q2.id == qid)) }, .ok)

/-- Concrete store for C9: bucket 1 holds exactly one active easy
question. -/
def c9Db : AdminDb :=
  { buckets := [{ id := 1, name := "b1", total_questions := some 1, easy_count := some 1,
                  medium_count := some 0, hard_count := some 0 }],
    questions := [{ id := 7, bucket_id := 1, question_text := "q", difficulty := "easy" }],
    quizzes := [], mappings := [] }

/-- Claim C9. Deleting the last active question of a bucket leaves the
denormalized counts in violation of the invariant: `COUNT(*)` stores
`total_questions = 0`, but each `SUM(CASE ...)` over the now-empty row
set is SQL `NULL`, so `easy_count`, `medium_count` and `hard_count` are
stored as `NULL` — not `0`, the live number of active questions of each
difficulty — and `total_questions = easy + medium + hard` fails under
`NULL` arithmetic. -/
theorem bucket_counts_null_after_last_question_removed :
    ((deleteQuestion c9Db 7).2 = .ok) ∧
    ((deleteQuestion c9Db 7).1.buckets
      = [{ id := 1, name := "b1", total_questions := some 0, easy_count := none,
           medium_count := none, hard_count := none }]) ∧
    ((liveQuestions (deleteQuestion c9Db 7).1 1).length = 0) := by
  decide

/-! ## POST /api/admin/quizzes/from-bucket (server.js lines 1644-1705) -/

/-- An entry of the request's `selectedQuestions` array (bucket-question
shape: `options` still serialized, `correct_answer` field name). -/
structure SelectedQ where
  question_text : String
  options : String
  correct_answer : Int
  points : Int
deriving DecidableEq, Repr

/-- Request body of the compose-from-bucket endpoint. -/
structure FromBucketRequest where
  quizId : String
  quizName : String
  description : String
  bucketId : Nat
  easyCount : Int
  mediumCount : Int
  hardCount : Int
  totalQuestions : Int
  randomization_settings : Option String := none
  proctoring_settings : Option String := none
  selectedQuestions : Option (List SelectedQ) := none
deriving DecidableEq, Repr

inductive FromBucketResult where
  | ok (message : String) (quizId : String) (questionsSelected : Nat)
  | badRequest (error : String)
  | serverError
deriving DecidableEq, Repr

/-- The `(selectedQuestions || []).map(q => ({...q, options:
JSON.parse(q.options), correct: q.correct_answer, points: q.points}))`
normalization; `none` models a `JSON.parse` throw (caught by the route
as a 500). -/
def mapSelected (parse : String → Option (List String)) :
    List SelectedQ → Option (List Question)
  | [] => some []
  | q :: t =>
    match parse q.options, mapSelected parse t with
    | some opts, some rest =>
      some ({ text := q.question_text, options := some opts,
              correct := q.correct_answer, points := q.points } :: rest)
    | _, _ => none

/-- Endpoint `POST /api/admin/quizzes/from-bucket`: the handler performs *no*
selection from the bucket and *no* quota validation — the spot where the
spec's per-difficulty random selection belongs holds only the comment
`// ...existing code to select questions from bucket...` and uses the
client-supplied `selectedQuestions` as-is.  It serializes those
questions into a new quiz row (`is_custom = true`, default 1 point per
question), records the *requested* per-difficulty quotas verbatim in
`quiz_bucket_mappings`, and reports success with
`questionsSelected = selectedQuestions.length` (`0` when absent).  A
duplicate `quizId` surfaces as 400 (`ER_DUP_ENTRY`); an unknown
`bucketId` makes the mapping insert violate its foreign key after the
quiz insert already succeeded (500). -/
def quizzesFromBucket (parse : String → Option (List String))
    (stringify : List Question → String)
    (db : AdminDb) (req : FromBucketRequest) : AdminDb × FromBucketResult :=
  match mapSelected parse (req.selectedQuestions.getD []) with
  | none => (db, .serverError)
  | some quizQuestions =>
    if db.quizzes.any (fun q => q.id == req.quizId) then
      (db, .badRequest "Quiz with this ID already exists")
    else
      let newQuiz : QuizRow :=
        { id := req.quizId
          name := req.quizName
          description := req.description
          questions := .str (stringify quizQuestions)
          points_per_question := some 1
          is_custom := true
          randomization_settings := some (req.randomization_settings.getD "{}")
          proctoring_settings := some (req.proctoring_settings.getD "{}") }
      if db.buckets.any (fun b => b.id == req.bucketId) then
        ({ db with
            quizzes := db.quizzes ++ [newQuiz]
            mappings := db.mappings ++
              [{ quiz_id := req.quizId, bucket_id := req.bucketId,
                 easy_count := req.easyCount, medium_count := req.mediumCount,
                 hard_count := req.hardCount, total_questions := req.totalQuestions }] },
         .ok "Quiz created successfully from bucket" req.quizId
           (req.selectedQuestions.getD []).length)
      else
        ({ db with quizzes := db.quizzes ++ [newQuiz] }, .serverError)

/-- Concrete store for C6: bucket 1 holds exactly 2 active easy
questions. -/
def c6Db : AdminDb :=
  { buckets := [{ id := 1, name := "js", total_questions := some 2, easy_count := some 2,
                  medium_count := some 0, hard_count := some 0 }],
    questions := [{ id := 1, bucket_id := 1, question_text := "q1", difficulty := "easy" },
                  { id := 2, bucket_id := 1, question_text := "q2", difficulty := "easy" }],
    quizzes := [], mappings := [] }

/-- Concrete request for C6: ask for 5 easy questions from bucket 1
(which has only 2), with an empty client-side selection. -/
def c6Req : FromBucketRequest :=
  { quizId := "quiz1", quizName := "Q", description := "", bucketId := 1,
    easyCount := 5, mediumCount := 0, hardCount := 0, totalQuestions := 5,
    selectedQuestions := some [] }

/-- Claim C6. With only 2 active easy questions in the bucket and a
request for `easyCount = 5`, the endpoint *succeeds* — there is no
`InsufficientQuestions` check and no per-tier random selection at all:
it stores the client-provided (here empty) question set, reports
`questionsSelected = 0`, and records the unmet quota `easy_count = 5`
verbatim in the mapping. -/
theorem fromBucket_ignores_tier_deficit :
    ((quizzesFromBucket (fun _ => some []) (fun _ => "[]") c6Db c6Req).2
      = .ok "Quiz created successfully from bucket" "quiz1" 0) ∧
    ((quizzesFromBucket (fun _ => some []) (fun _ => "[]") c6Db c6Req).1.mappings
      = [{ quiz_id := "quiz1", bucket_id := 1, easy_count := 5, medium_count := 0,
           hard_count := 0, total_questions := 5 }]) ∧
    (((liveQuestions c6Db 1).filter (fun q => q.difficulty == "easy")).length = 2) := by
  decide

/-! ## GET /api/quizzes/:id — quiz delivery (server.js lines 1025-1160) -/

/-- Admin-configured randomization settings, with the handler's default
values. -/
structure RandSettings where
  randomizeQuestions : Bool := false
  randomizeOptions : Bool := false
  questionLimit : Option Int := none
deriving DecidableEq, Repr

/-- Admin-configured proctoring settings, with the handler's default
values. -/
structure ProcSettings where
  enabled : Bool := false
  level : String := "basic"
  strictMode : Bool := false
deriving DecidableEq, Repr

/-- The query-string overrides of the delivery endpoint (`undefined`
parameter = `none`). -/
structure QuizQuery where
  randomize_questions : Option String := none
  randomize_options : Option String := none
  question_limit : Option String := none
deriving DecidableEq, Repr

/-- The `randomizationApplied` object of the response. -/
structure RandApplied where
  questions : Bool
  options : Bool
  questionLimit : Option Int
  finalQuestionCount : Nat
deriving DecidableEq, Repr

/-- The delivery response payload.  `hasError : Option Bool` models
presence/absence of a `hasError` key in the JSON object (`none` = the
key is absent). -/
structure QuizResponse where
  name : String
  description : String
  questions : List Question
  pointsPerQuestion : Option Int
  isCustom : Bool
  randomizationApplied : RandApplied
  proctoringSettings : ProcSettings
  hasError : Option Bool
deriving DecidableEq, Repr

/-- HTTP outcome of the delivery endpoint.  `serverError` is the outer
catch (500), reachable only through database exceptions, which the
model does not produce. -/
inductive QuizHttpOut where
  | ok (r : QuizResponse)
  | notFound (error : String)
  | serverError
deriving DecidableEq, Repr

/-- JS `quiz.points_per_question || 1` (`null` and `0` are falsy). -/
def jsOrOne : Option Int → Int
  | none => 1
  | some v => if v == 0 then 1 else v

/-- Truthiness of the `questionLimit` value in
`randomizeQuestions || randomizeOptions || questionLimit`
(`null`/`NaN` = `none`, `0` falsy). -/
def jsTruthyLim : Option Int → Bool
  | none => false
  | some n => !(n == 0)

/-- Value `randomizationSettings` after the guarded `JSON.parse` (a parse
failure only warns and keeps the defaults). -/
def effectiveRandSettings (parseRand : String → Option RandSettings)
    (quiz : QuizRow) : RandSettings :=
  match quiz.randomization_settings with
  | some s => (parseRand s).getD {}
  | none => {}

/-- Value `proctoringSettings` after the guarded `JSON.parse`. -/
def effectiveProcSettings (parseProc : String → Option ProcSettings)
    (quiz : QuizRow) : ProcSettings :=
  match quiz.proctoring_settings with
  | some s => (parseProc s).getD {}
  | none => {}

/-- Effective `randomizeQuestions`: query override (`=== 'true'`) or admin
setting. -/
def effRQ (parseRand : String → Option RandSettings) (quiz : QuizRow)
    (query : QuizQuery) : Bool :=
  match query.randomize_questions with
  | some v => v == "true"
  | none => (effectiveRandSettings parseRand quiz).randomizeQuestions

/-- Effective `randomizeOptions`: query override (`=== 'true'`) or admin
setting. -/
def effRO (parseRand : String → Option RandSettings) (quiz : QuizRow)
    (query : QuizQuery) : Bool :=
  match query.randomize_options with
  | some v => v == "true"
  | none => (effectiveRandSettings parseRand quiz).randomizeOptions

/-- Effective `questionLimit`: `req.query.question_limit ? parseInt(...) :
settings.questionLimit` — an empty string is falsy; `parseInt` returning
`NaN` is `none`. -/
def effLim (parseIntF : String → Option Int)
    (parseRand : String → Option RandSettings) (quiz : QuizRow)
    (query : QuizQuery) : Option Int :=
  match query.question_limit with
  | some v =>
    if v == "" then (effectiveRandSettings parseRand quiz).questionLimit
    else parseIntF v
  | none => (effectiveRandSettings parseRand quiz).questionLimit

/-- The success payload (server.js lines 1121-1134): randomize only when
`randomizeQuestions || randomizeOptions || questionLimit` is truthy. -/
def buildQuizResponse (cs : Nat → Nat → Nat) (cq : Nat → Nat) (quiz : QuizRow)
    (ps : ProcSettings) (rq ro : Bool) (lim : Option Int)
    (qs0 : List Question) : QuizHttpOut :=
  let qs := if rq || ro || jsTruthyLim lim then randomizeQuiz cs cq qs0 rq ro lim else qs0
  .ok { name := quiz.name
        description := quiz.description
        questions := qs
        pointsPerQuestion := quiz.points_per_question
        isCustom := quiz.is_custom
        randomizationApplied :=
          { questions := rq, options := ro, questionLimit := lim,
            finalQuestionCount := qs.length }
        proctoringSettings := ps
        hasError := none }

/-- The degraded payload of the inner catch (server.js lines 1135-1155):
empty question list, no randomization, `points_per_question || 1` — and
*no* `hasError` key. -/
def degradedPayload (quiz : QuizRow) (ps : ProcSettings) : QuizResponse :=
  { name := quiz.name
    description := quiz.description
    questions := []
    pointsPerQuestion := some (jsOrOne quiz.points_per_question)
    isCustom := quiz.is_custom
    randomizationApplied :=
      { questions := false, options := false, questionLimit := none,
        finalQuestionCount := 0 }
    proctoringSettings := ps
    hasError := none }

/-- Endpoint `GET /api/quizzes/:id`.  `parseQ` models `JSON.parse` on the stored
questions string restricted to the claim's cases: `none` = the parse
throws (caught by the inner catch), `some qs` = it yields an array. -/
def getQuizById (parseQ : String → Option (List Question))
    (parseRand : String → Option RandSettings)
    (parseProc : String → Option ProcSettings)
    (parseIntF : String → Option Int)
    (cs : Nat → Nat → Nat) (cq : Nat → Nat)
    (db : AdminDb) (quizId : String) (query : QuizQuery) : QuizHttpOut :=
  match db.quizzes.find? (fun q => q.id == quizId) with
  | none => .notFound "Quiz not found"
  | some quiz =>
    match quiz.questions with
    | .str s =>
      match parseQ s with
      | none => .ok (degradedPayload quiz (effectiveProcSettings parseProc quiz))
      | some qs0 =>
        buildQuizResponse cs cq quiz (effectiveProcSettings parseProc quiz)
          (effRQ parseRand quiz query) (effRO parseRand quiz query)
          (effLim parseIntF parseRand quiz query) qs0
    | .arr qs0 =>
      buildQuizResponse cs cq quiz (effectiveProcSettings parseProc quiz)
        (effRQ parseRand quiz query) (effRO parseRand quiz query)
        (effLim parseIntF parseRand quiz query) qs0
    | .other =>
      buildQuizResponse cs cq quiz (effectiveProcSettings parseProc quiz)
        (effRQ parseRand quiz query) (effRO parseRand quiz query)
        (effLim parseIntF parseRand quiz query) []

/-- Claim C8 (corrected). For every delivery request whose stored
questions payload is a string that fails to parse, the response is a
degraded 200 success — quiz metadata with an empty question list — and
never a 500; but the payload carries *no* `hasError` key (the
`hasError: true` flag exists only in the quiz-*list* endpoint
`GET /api/quizzes`, and only on its non-parse processing-error path). -/
theorem quiz_delivery_malformed_degraded
    (parseQ : String → Option (List Question))
    (parseRand : String → Option RandSettings)
    (parseProc : String → Option ProcSettings)
    (parseIntF : String → Option Int)
    (cs : Nat → Nat → Nat) (cq : Nat → Nat)
    (db : AdminDb) (quizId : String) (query : QuizQuery) (quiz : QuizRow) (s : String)
    (hfindq : db.quizzes.find? (fun q => q.id == quizId) = some quiz)
    (hstr : quiz.questions = QField.str s)
    (hparse : parseQ s = none) :
    (getQuizById parseQ parseRand parseProc parseIntF cs cq db quizId query
        = .ok (degradedPayload quiz (effectiveProcSettings parseProc quiz))) ∧
    ((degradedPayload quiz (effectiveProcSettings parseProc quiz)).questions = []) ∧
    ((degradedPayload quiz (effectiveProcSettings parseProc quiz)).hasError = none) := by
  refine ⟨?_, rfl, rfl⟩
  unfold getQuizById
  simp only [hfindq, hstr, hparse]

/-- Concrete quiz row with an unparseable stored questions payload. -/
def c8Quiz : QuizRow :=
  { id := "qz", name := "N", description := "D", questions := .str "CORRUPT",
    points_per_question := some 2, is_custom := true }

def c8Db : AdminDb :=
  { buckets := [], questions := [], quizzes := [c8Quiz], mappings := [] }

/-- Witness for C8's amended theorem at the concrete corrupt quiz. -/
theorem quiz_delivery_malformed_degraded_witness :
    (getQuizById (fun _ => none) (fun _ => none) (fun _ => none) (fun _ => none)
        (fun _ _ => 0) (fun _ => 0) c8Db "qz" {}
      = .ok (degradedPayload c8Quiz (effectiveProcSettings (fun _ => none) c8Quiz))) ∧
    ((degradedPayload c8Quiz (effectiveProcSettings (fun _ => none) c8Quiz)).questions = []) ∧
    ((degradedPayload c8Quiz (effectiveProcSettings (fun _ => none) c8Quiz)).hasError = none) :=
  quiz_delivery_malformed_degraded (fun _ => none) (fun _ => none) (fun _ => none)
    (fun _ => none) (fun _ _ => 0) (fun _ => 0) c8Db "qz" {} c8Quiz "CORRUPT"
    rfl rfl rfl

/-- Claim C8 counterexample. The degraded response for the corrupt quiz
is a 200 success with an empty question list, but its `hasError` field
is absent (`none`), not `true`: the claim's "flagged `hasError: true`"
fails on the delivery endpoint. -/
theorem quiz_delivery_degraded_lacks_hasError :
    (getQuizById (fun _ => none) (fun _ => none) (fun _ => none) (fun _ => none)
        (fun _ _ => 0) (fun _ => 0) c8Db "qz" {}
      = .ok (degradedPayload c8Quiz {})) ∧
    ((degradedPayload c8Quiz {}).questions = []) ∧
    ((degradedPayload c8Quiz {}).hasError ≠ some true) := by
  refine ⟨rfl, rfl, ?_⟩
  decide

end AssessEvent
